import Mathlib

/-
Verification development for the classical tree counter of the uav-forests
repository (src/counting/classical_tree_counter.py).

The Python source orchestrates OpenCV image operations.  Pure Lean models of
the OpenCV primitives the source invokes (bitwise_and with mask, bitwise_not,
cvtColor BGR2GRAY, addWeighted, threshold, morphologyEx MORPH_OPEN with a 3x3
kernel, SimpleBlobDetector) are defined below following the
documented and implemented semantics of those library routines, parameterised exactly as the source
parameterises them.  Pixels are natural numbers (uint8 values), intermediate
arithmetic is exact rational arithmetic with explicit rounding and
saturation, mirroring the double arithmetic of OpenCV followed by
saturate_cast<uchar>.  Rounding is modelled as round-half-up; cvRound in
OpenCV rounds half to even, the two agree except at exact halves, and no
statement proved here depends on the behaviour at exact halves.
-/

-- ## Scalar helpers: saturation to uint8 and rounding

/-- Saturation of an integer into the uint8 range, as in saturate_cast<uchar>. -/
def clip255 (z : ℤ) : ℕ :=
  if z ≤ 0 then 0 else if 255 ≤ z then 255 else z.toNat

/-- Round a rational to an integer and saturate to uint8; the composition
OpenCV applies when storing a double into an 8-bit image. -/
def satRound (q : ℚ) : ℕ := clip255 (round q)

-- ## Array and image data model

/-- Model of a numpy ndarray: a shape together with the value stored at each
multi-index.  Only the shape takes part in the validation performed by
TreeCounter.count; pixel access goes through the image views below. -/
structure NpArray where
  shape : List ℕ
  data : List ℕ → ℕ

/-- A single-channel image: dimensions plus a pixel function (row, col). -/
structure Img where
  rows : ℕ
  cols : ℕ
  px : ℕ → ℕ → ℕ

/-- A multi-channel image: dimensions plus a pixel function (row, col, chan).
Channel order is BGR-style positional, exactly as the numpy array stores it. -/
structure Img3 where
  rows : ℕ
  cols : ℕ
  chans : ℕ
  px : ℕ → ℕ → ℕ → ℕ

-- ## Models of the OpenCV primitives the source calls

/-- Model of cv2.bitwise_and(src, src, mask=m): keep the pixel where the mask
is nonzero, zero elsewhere. -/
def bitwiseAndMask (img : Img3) (mask : Img) : Img3 :=
  ⟨img.rows, img.cols, img.chans,
   fun r c k => if mask.px r c ≠ 0 then img.px r c k else 0⟩

/-- Model of cv2.bitwise_not on a uint8 image: per-channel complement 255 - v. -/
def bitwiseNot (img : Img3) : Img3 :=
  ⟨img.rows, img.cols, img.chans, fun r c k => 255 - img.px r c k⟩

/-- Model of cv2.cvtColor(img, cv2.COLOR_BGR2GRAY): the documented luma
formula Y = 0.299 R + 0.587 G + 0.114 B with channel 2 = R, channel 1 = G,
channel 0 = B, rounded and saturated into uint8. -/
def cvtColorBGR2GRAY (img : Img3) : Img :=
  ⟨img.rows, img.cols,
   fun r c =>
     satRound ((299 / 1000 : ℚ) * img.px r c 2 + (587 / 1000 : ℚ) * img.px r c 1
       + (114 / 1000 : ℚ) * img.px r c 0)⟩

/-- Model of cv2.addWeighted(src1, alpha, src2, beta, gamma) at one pixel:
saturate(round(alpha*v1 + beta*v2 + gamma)). -/
def addWeightedPx (alpha : ℚ) (v1 : ℕ) (beta : ℚ) (v2 : ℕ) (gamma : ℚ) : ℕ :=
  satRound (alpha * v1 + beta * v2 + gamma)

/-- Model of cv2.threshold(..., thresh, maxval, cv2.THRESH_BINARY) at one
pixel: the documented semantics maps a pixel to maxval when its value is
STRICTLY greater than thresh, and to 0 otherwise. -/
def thresholdPx (thresh maxval v : ℕ) : ℕ :=
  if thresh < v then maxval else 0

/-- cv2.threshold with THRESH_BINARY over a whole image. -/
def thresholdImg (thresh maxval : ℕ) (img : Img) : Img :=
  ⟨img.rows, img.cols, fun r c => thresholdPx thresh maxval (img.px r c)⟩

/-- The nine offsets of a full 3x3 structuring element (np.ones((3,3))). -/
def kernel3Offsets : List (ℤ × ℤ) :=
  [(-1, -1), (-1, 0), (-1, 1), (0, -1), (0, 0), (0, 1), (1, -1), (1, 0), (1, 1)]

/-- Values of the in-bounds 3x3 neighbourhood of (r, c).  Out-of-bounds
positions are dropped, modelling morphology with the default border value
(+inf for erosion, -inf for dilation), under which border pixels outside the
image never influence the minimum or maximum. -/
def nbrVals (img : Img) (r c : ℕ) : List ℕ :=
  kernel3Offsets.filterMap (fun d =>
    let r2 : ℤ := (r : ℤ) + d.1
    let c2 : ℤ := (c : ℤ) + d.2
    if 0 ≤ r2 ∧ r2 < (img.rows : ℤ) ∧ 0 ≤ c2 ∧ c2 < (img.cols : ℤ) then
      some (img.px r2.toNat c2.toNat)
    else none)

/-- Morphological erosion with the 3x3 kernel: neighbourhood minimum. -/
def erode3 (img : Img) : Img :=
  ⟨img.rows, img.cols, fun r c => (nbrVals img r c).foldr min 255⟩

/-- Morphological dilation with the 3x3 kernel: neighbourhood maximum. -/
def dilate3 (img : Img) : Img :=
  ⟨img.rows, img.cols, fun r c => (nbrVals img r c).foldr max 0⟩

/-- Model of cv2.morphologyEx(img, cv2.MORPH_OPEN, kernel3): erosion then
dilation. -/
def morphOpen3 (img : Img) : Img := dilate3 (erode3 img)

-- ## Blob detector parameters (cv2.SimpleBlobDetector_Params)

/-- The fields of cv2.SimpleBlobDetector_Params used by the detector model.
The field minInertiaR corresponds to the params field holding the minimal
inertia ratio; the name is shortened.  The circularity and convexity bounds
are carried but the corresponding tests are not modelled: in every
configuration the source creates, their minimum is 0 and their maximum is the
constructor default FLT_MAX, and both descriptors are nonnegative reals
bounded far below FLT_MAX, so those two tests accept every candidate. -/
structure BlobParams where
  thresholdStep : ℚ
  minThreshold : ℚ
  maxThreshold : ℚ
  minRepeatability : ℕ
  minDistBetweenBlobs : ℚ
  filterByColor : Bool
  blobColor : ℕ
  filterByArea : Bool
  minArea : ℚ
  maxArea : ℚ
  filterByCircularity : Bool
  minCircularity : ℚ
  filterByConvexity : Bool
  minConvexity : ℚ
  filterByInertia : Bool
  minInertiaR : ℚ

/-- Constructor defaults of cv2.SimpleBlobDetector_Params() for the fields
the source does not assign. -/
def defaultBlobParams : BlobParams where
  thresholdStep := 10
  minThreshold := 50
  maxThreshold := 220
  minRepeatability := 2
  minDistBetweenBlobs := 10
  filterByColor := true
  blobColor := 0
  filterByArea := true
  minArea := 25
  maxArea := 5000
  filterByCircularity := false
  minCircularity := 8 / 10
  filterByConvexity := true
  minConvexity := 95 / 100
  filterByInertia := true
  minInertiaR := 1 / 10

/-- TreeCounter._get_blob_params: start from the constructor defaults and
assign exactly the fields the source assigns (lines 36-60). -/
def getBlobParams : BlobParams :=
  { defaultBlobParams with
    minThreshold := 0
    maxThreshold := 100
    filterByArea := true
    minArea := 1
    maxArea := 10
    filterByCircularity := true
    minCircularity := 0
    filterByConvexity := true
    minConvexity := 0
    filterByInertia := true
    minInertiaR := 1 / 100 }

-- ## Brightness / contrast (TreeCounter._apply_brightness_contrast)

/-- TreeCounter._apply_brightness_contrast at one pixel, following the source
line by line: a brightness stage applied when brightness is nonzero (with
shadow/highlight chosen by the sign of brightness) and a contrast stage
applied when contrast is nonzero, each realised through cv2.addWeighted with
beta zero. -/
def applyBrightnessContrastPx (brightness contrast : ℤ) (v : ℕ) : ℕ :=
  let buf :=
    if brightness ≠ 0 then
      let shadow : ℤ := if 0 < brightness then brightness else 0
      let highlight : ℤ := if 0 < brightness then 255 else 255 + brightness
      let alpha_b : ℚ := ((highlight : ℚ) - (shadow : ℚ)) / 255
      let gamma_b : ℚ := (shadow : ℚ)
      addWeightedPx alpha_b v 0 v gamma_b
    else v
  if contrast ≠ 0 then
    let f : ℚ := 131 * ((contrast : ℚ) + 127) / (127 * (131 - (contrast : ℚ)))
    addWeightedPx f buf 0 buf (127 * (1 - f))
  else buf

/-- TreeCounter._apply_brightness_contrast over a whole single-channel image. -/
def applyBrightnessContrastImg (brightness contrast : ℤ) (img : Img) : Img :=
  ⟨img.rows, img.cols, fun r c => applyBrightnessContrastPx brightness contrast (img.px r c)⟩

/-- Line 74 of the source: the l_channel image, i.e. grayscale conversion
followed by _apply_brightness_contrast with the fixed arguments 64 and 90. -/
def lChannel (img : Img3) : Img :=
  applyBrightnessContrastImg 64 90 (cvtColorBGR2GRAY img)

/-- TreeCounter._preprocess_forest_img: grayscale + brightness/contrast
(lChannel), cv2.threshold at 170 with maxval 255, then morphological opening
with the 3x3 ones kernel.  The trailing np.uint8 cast is the identity on an
image whose values are already uint8. -/
def preprocessForestImg (img : Img3) : Img :=
  morphOpen3 (thresholdImg 170 255 (lChannel img))

-- ## Model of cv2.SimpleBlobDetector.detect
--
-- The detector (features2d/blobdetector.cpp) binarizes the grayscale input
-- at a sweep of thresholds, extracts candidate blobs per binary image,
-- filters them, groups candidates across thresholds by centre distance, and
-- keeps groups seen at minRepeatability levels or more.  With the
-- parameters set by the source filterByColor is on with blobColor 0, so only candidates whose
-- centre lies in the dark (value 0) region of the binarized image survive;
-- the model extracts candidates directly as connected components of the dark
-- region (8-connectivity) together with the centre colour test.  Area is
-- modelled as the pixel count of the component and the second-order moments
-- as pixel-set moments (OpenCV derives both from the traced contour; the two
-- agree up to contour discretisation and no theorem below depends on the
-- difference).

/-- The threshold sweep: thresh from minThreshold, while thresh < maxThreshold,
stepping by thresholdStep. -/
def thresholdLevels (p : BlobParams) : List ℚ :=
  (List.range (Int.toNat (Int.ceil ((p.maxThreshold - p.minThreshold) / p.thresholdStep)))).map
    (fun i : ℕ => p.minThreshold + p.thresholdStep * (i : ℚ))

/-- Binarization the detector applies at sweep level t: cv2.threshold with
THRESH_BINARY and maxval 255, i.e. strictly-greater comparison. -/
def binarizeAt (t : ℚ) (img : Img) : Img :=
  ⟨img.rows, img.cols, fun r c => if t < (img.px r c : ℚ) then 255 else 0⟩

/-- The dark pixels (value 0) of a binary image, in row-major order. -/
def darkPixels (img : Img) : List (ℕ × ℕ) :=
  (List.range img.rows).flatMap (fun r =>
    (List.range img.cols).filterMap (fun c =>
      if img.px r c = 0 then some (r, c) else none))

/-- 8-connectivity adjacency of two distinct grid positions. -/
def adjacent8 (p q : ℕ × ℕ) : Bool :=
  decide (Nat.dist p.1 q.1 ≤ 1 ∧ Nat.dist p.2 q.2 ≤ 1 ∧ p ≠ q)

/-- One region-growing pass: move every pixel of rest adjacent to the
component into the component, repeating while the fuel lasts.  The fuel is
instantiated with the number of remaining pixels, which bounds the number of
useful passes. -/
def growComponent : ℕ → List (ℕ × ℕ) → List (ℕ × ℕ) → List (ℕ × ℕ) × List (ℕ × ℕ)
  | 0, comp, rest => (comp, rest)
  | n + 1, comp, rest =>
    let parts := rest.partition (fun q => comp.any (fun p => adjacent8 p q))
    match parts.1 with
    | [] => (comp, rest)
    | _ => growComponent n (comp ++ parts.1) parts.2

/-- Split a pixel list into 8-connected components, seeded in list order. -/
def componentsAux : ℕ → List (ℕ × ℕ) → List (List (ℕ × ℕ))
  | 0, _ => []
  | n + 1, pts =>
    match pts with
    | [] => []
    | p :: rest =>
      let res := growComponent rest.length [p] rest
      res.1 :: componentsAux n res.2

/-- The 8-connected components of a pixel set. -/
def components (pts : List (ℕ × ℕ)) : List (List (ℕ × ℕ)) :=
  componentsAux pts.length pts

/-- The area test of the detector, from blobdetector.cpp: with filterByArea on, a
candidate is DISCARDED when area < minArea or area >= maxArea, so the
accepted areas form the half-open interval [minArea, maxArea). -/
def passesAreaFilter (p : BlobParams) (area : ℚ) : Bool :=
  if p.filterByArea then decide (¬ (area < p.minArea ∨ p.maxArea ≤ area)) else true

/-- The inertia test of the detector, from blobdetector.cpp, written without
square roots: with S = mu20 + mu02 and D = sqrt((mu20 - mu02)^2 + 4*mu11^2),
the axis ratio is (S - D) / (S + D) when D > 0.01 and 1 otherwise, and the
candidate passes when the ratio is at least the minimal inertia ratio.  Since
S >= 0 and D >= 0, ratio >= m is equivalent to 0 <= S*(1 - m) together with
D^2 * (1 + m)^2 <= (S * (1 - m))^2, which is decidable over the rationals. -/
def passesInertiaFilter (p : BlobParams) (mu20 mu02 mu11 : ℚ) : Bool :=
  if p.filterByInertia then
    let S := mu20 + mu02
    let Dsq := (mu20 - mu02) ^ 2 + 4 * mu11 ^ 2
    if 1 / 10000 < Dsq then
      decide (0 ≤ S * (1 - p.minInertiaR)) &&
        decide (Dsq * (1 + p.minInertiaR) ^ 2 ≤ (S * (1 - p.minInertiaR)) ^ 2)
    else
      decide (p.minInertiaR ≤ 1)
  else true

/-- A filtered candidate blob at one threshold level: its sub-pixel centre
(x, y) = (mean column, mean row). -/
structure Candidate where
  loc : ℚ × ℚ

/-- Build the candidate for one connected dark component of a binarized
image, applying the centre-colour, area and inertia tests; the circularity
and convexity tests accept every candidate under the parameters the source sets
(see BlobParams). -/
def candidateOfComp (p : BlobParams) (bin : Img) (comp : List (ℕ × ℕ)) : Option Candidate :=
  match comp with
  | [] => none
  | _ =>
    let n : ℚ := comp.length
    let xbar : ℚ := (comp.foldr (fun q s => s + (q.2 : ℚ)) 0) / n
    let ybar : ℚ := (comp.foldr (fun q s => s + (q.1 : ℚ)) 0) / n
    let mu20 : ℚ := comp.foldr (fun q s => s + ((q.2 : ℚ) - xbar) ^ 2) 0
    let mu02 : ℚ := comp.foldr (fun q s => s + ((q.1 : ℚ) - ybar) ^ 2) 0
    let mu11 : ℚ := comp.foldr (fun q s => s + ((q.2 : ℚ) - xbar) * ((q.1 : ℚ) - ybar)) 0
    let colorOK : Bool :=
      if p.filterByColor then
        decide (bin.px (round ybar).toNat (round xbar).toNat = p.blobColor)
      else true
    if colorOK && passesAreaFilter p n && passesInertiaFilter p mu20 mu02 mu11 then
      some ⟨(xbar, ybar)⟩
    else none

/-- All filtered candidates of the binarized image at sweep level t. -/
def candidatesAt (p : BlobParams) (img : Img) (t : ℚ) : List Candidate :=
  (components (darkPixels (binarizeAt t img))).filterMap (candidateOfComp p (binarizeAt t img))

/-- Squared Euclidean distance between two candidate centres. -/
def distSq (a b : ℚ × ℚ) : ℚ := (a.1 - b.1) ^ 2 + (a.2 - b.2) ^ 2

/-- The representative the detector compares a new centre against: the middle
element of the group (centers[j][centers[j].size()/2]). -/
def middleOf (g : List Candidate) : Candidate :=
  g.getD (g.length / 2) ⟨(0, 0)⟩

/-- Insert one candidate into the cross-threshold groups: it joins the first
group whose representative lies strictly within minDistBetweenBlobs (squared
distances compared, avoiding the square root), otherwise it starts a new
group at the end. -/
def insertCenter (p : BlobParams) (c : Candidate) : List (List Candidate) → List (List Candidate)
  | [] => [[c]]
  | g :: gs =>
    if distSq (middleOf g).loc c.loc < p.minDistBetweenBlobs ^ 2 then
      (g ++ [c]) :: gs
    else g :: insertCenter p c gs

/-- A detected keypoint; only its sub-pixel centre pt = (x, y) is modelled,
it is the only field the source reads. -/
structure KeyPoint where
  pt : ℚ × ℚ
deriving DecidableEq

/-- The keypoint of a stable group: the average of the member centres
(every member has confidence 1 under these parameters). -/
def keypointOf (g : List Candidate) : KeyPoint :=
  let n : ℚ := g.length
  ⟨((g.foldr (fun c s => s + c.loc.1) 0) / n, (g.foldr (fun c s => s + c.loc.2) 0) / n)⟩

/-- TreeCounter._detect_blobs: the SimpleBlobDetector pipeline with the given
parameters: sweep, per-level candidates, cross-threshold grouping, and the
repeatability cut. -/
def detectBlobs (p : BlobParams) (img : Img) : List KeyPoint :=
  (((((thresholdLevels p).map (candidatesAt p img)).foldl
        (fun gs cands => cands.foldl (fun h c => insertCenter p c h) gs) []).filter
      (fun g => p.minRepeatability ≤ g.length)).map keypointOf)

-- ## TreeCounter and its count method

/-- TreeCounter instance state: the blob parameters built by __init__ and the
stored return_locations flag. -/
structure TreeCounter where
  params : BlobParams
  return_locations : Bool

/-- TreeCounter.__init__: params from _get_blob_params, flag stored. -/
def TreeCounter.new (return_locations : Bool) : TreeCounter :=
  ⟨getBlobParams, return_locations⟩

/-- The error raised when the input validation of count fails.  In the source the
three checks are assert statements; the specification names the resulting
failure ShapeMismatchError.  One constructor per assert, in source order. -/
inductive ShapeMismatchError where
  | rgbNot3Dim : ShapeMismatchError
  | maskNot2Dim : ShapeMismatchError
  | maskShapeNeq : ShapeMismatchError
deriving DecidableEq

/-- Lines 108-113 of the source: the three shape assertions of count, checked
in order; none when all pass. -/
def validateShapes (rgb mask : NpArray) : Option ShapeMismatchError :=
  if rgb.shape.length ≠ 3 then some .rgbNot3Dim
  else if mask.shape.length ≠ 2 then some .maskNot2Dim
  else if rgb.shape.take 2 ≠ mask.shape then some .maskShapeNeq
  else none

/-- The dictionary count returns.  The fields trees and keypoints are Options
because the dead branch of the source (lines 122-123) would return None for them;
the live path always returns lists. -/
structure CountResult where
  trees : Option (List (ℚ × ℚ))
  count : ℕ
  keypoints : Option (List KeyPoint)
deriving DecidableEq

/-- View a validated 3-dimensional array as a multi-channel image. -/
def imgOfArray (a : NpArray) : Img3 :=
  ⟨a.shape.headD 0, (a.shape.drop 1).headD 0, (a.shape.drop 2).headD 0,
   fun r c k => a.data [r, c, k]⟩

/-- View a validated 2-dimensional array as a single-channel image. -/
def maskOfArray (a : NpArray) : Img :=
  ⟨a.shape.headD 0, (a.shape.drop 1).headD 0, fun r c => a.data [r, c]⟩

/-- Lines 119-121 of the source: mask the RGB tile with the forest mask, then
invert it.  cv2.bitwise_not never returns None, so the None test on line 122
is dead; the embedding follows the live path. -/
def maskedInput (rgb mask : NpArray) : Img3 :=
  bitwiseNot (bitwiseAndMask (imgOfArray rgb) (maskOfArray mask))

/-- TreeCounter.count: validate the shapes, mask and invert, preprocess,
detect blobs, and assemble the result dictionary with trees = the keypoint
centres, count = their number, keypoints = the keypoints. -/
def TreeCounter.count (tc : TreeCounter) (rgb mask : NpArray) :
    Except ShapeMismatchError CountResult :=
  match validateShapes rgb mask with
  | some e => .error e
  | none =>
    let pre := preprocessForestImg (maskedInput rgb mask)
    let kps := detectBlobs tc.params pre
    .ok ⟨some (kps.map KeyPoint.pt), kps.length, some kps⟩

-- ## Coordinate mapping (the __main__ keypoint-to-GeoPoint loop)
--
-- The loop calls rasterio.transform.rowcol(transform, x_min, y_min) and then
-- rasterio.transform.xy(transform, row + y, col + x).  the rasterio rowcol
-- applies the inverse affine transform and then, by default, math.floor to
-- each fractional index; rasterio xy by default returns the coordinate of
-- the CENTER of the given pixel, i.e. the forward transform of
-- (col + 1/2, row + 1/2).

/-- A geographic affine transform with x = a*col + b*row + c and
y = d*col + e*row + f, the six-coefficient layout rasterio uses. -/
structure Affine where
  a : ℚ
  b : ℚ
  c : ℚ
  d : ℚ
  e : ℚ
  f : ℚ

/-- Determinant of the linear part. -/
def Affine.det (T : Affine) : ℚ := T.a * T.e - T.b * T.d

/-- Forward transform: pixel (col, row) to geographic (x, y). -/
def Affine.fwd (T : Affine) (col row : ℚ) : ℚ × ℚ :=
  (T.a * col + T.b * row + T.c, T.d * col + T.e * row + T.f)

/-- Fractional column of the inverse transform. -/
def Affine.invCol (T : Affine) (x y : ℚ) : ℚ :=
  (T.e * (x - T.c) - T.b * (y - T.f)) / T.det

/-- Fractional row of the inverse transform. -/
def Affine.invRow (T : Affine) (x y : ℚ) : ℚ :=
  (T.a * (y - T.f) - T.d * (x - T.c)) / T.det

/-- rasterio.transform.rowcol with the default op = math.floor: the floored
(row, col) of the pixel containing the geographic point (x, y). -/
def Affine.rowcol (T : Affine) (x y : ℚ) : ℤ × ℤ :=
  (Int.floor (T.invRow x y), Int.floor (T.invCol x y))

/-- rasterio.transform.xy with the default offset = center: the geographic
coordinate of the centre of pixel (row, col). -/
def Affine.xy (T : Affine) (row col : ℚ) : ℚ × ℚ :=
  T.fwd (col + 1 / 2) (row + 1 / 2)

/-- Lines 202-203 of the source: convert the tile origin (x_min, y_min) to
raster indices with rowcol, add the local (y, x) offset of the keypoint, and map
back with xy. -/
def keypointToGeo (T : Affine) (xmin ymin x y : ℚ) : ℚ × ℚ :=
  let rc := T.rowcol xmin ymin
  T.xy ((rc.1 : ℚ) + y) ((rc.2 : ℚ) + x)

-- ## Definitions taken from the words of the specification (for comparison
-- theorems) and concrete inputs used by witness theorems

/-- Modelled from the spec: the brightness stage for b > 0 linearly remaps
intensities onto the range from b to 255, i.e. v goes to (255 - b)/255 * v + b,
stored as uint8. -/
def specBrightnessRemapPx (b : ℤ) (v : ℕ) : ℕ :=
  satRound ((((255 - b : ℤ) : ℚ) / 255) * v + (b : ℚ))

/-- Modelled from the spec: the contrast stage computes the gain
f = 131*(c+127) / (127*(131-c)) and maps v to f*v + 127*(1-f), clipped to
[0, 255]. -/
def specContrastPx (c : ℤ) (v : ℕ) : ℕ :=
  satRound (131 * ((c : ℚ) + 127) / (127 * (131 - (c : ℚ))) * v
    + 127 * (1 - 131 * ((c : ℚ) + 127) / (127 * (131 - (c : ℚ)))))

/-- Two successive invocations of _preprocess_forest_img on the same input:
the embedding is a pure function because the source mutates nothing between
calls (self.params is written only by __init__ and the cv2 routines allocate
fresh outputs), so the pair collects the outputs of both runs. -/
def runPreprocessTwice (img : Img3) : Img × Img :=
  (preprocessForestImg img, preprocessForestImg img)

/-- A concrete 1x1x3 RGB tile used by witness theorems. -/
def rgbTile1 : NpArray := ⟨[1, 1, 3], fun _ => 7⟩

/-- A concrete all-zero 1x1 forest mask used by witness theorems. -/
def zeroMask1 : NpArray := ⟨[1, 1], fun _ => 0⟩

/-- A concrete 2-dimensional array, an invalid RGB input. -/
def badRgb2Dim : NpArray := ⟨[2, 2], fun _ => 0⟩

/-- The identity-like affine transform (unit square pixels, origin 0). -/
def idAffine : Affine := ⟨1, 0, 0, 0, 1, 0⟩

/-- A concrete anisotropic axis-aligned affine transform with the usual
negative y step of north-up rasters. -/
def exAffine : Affine := ⟨2, 0, 10, 0, -3, 50⟩

-- ## Helper lemmas

/-- A fold of min over a list of 255s, starting at 255, is 255. -/
theorem foldr_min_of_all_eq (l : List ℕ) (h : ∀ v ∈ l, v = 255) :
    l.foldr min 255 = 255 := by
  induction l with
  | nil => rfl
  | cons a t ih =>
    have ha := h a (List.mem_cons_self a t)
    have ht := ih (fun v hv => h v (List.mem_cons_of_mem a hv))
    simp [ha, ht]

/-- A fold of max over a nonempty list of 255s, starting at 0, is 255. -/
theorem foldr_max_of_all_eq (l : List ℕ) (h : ∀ v ∈ l, v = 255) (hne : l ≠ []) :
    l.foldr max 0 = 255 := by
  induction l with
  | nil => exact absurd rfl hne
  | cons a t ih =>
    have ha := h a (List.mem_cons_self a t)
    cases t with
    | nil => simp [ha]
    | cons b t2 =>
      have ht := ih (fun v hv => h v (List.mem_cons_of_mem a hv)) (by simp)
      simp [ha, ht]

/-- A fold of min starting at 255 over values in {0, 255} is in {0, 255}. -/
theorem foldr_min_mem01 (l : List ℕ) (h : ∀ v ∈ l, v = 0 ∨ v = 255) :
    l.foldr min 255 = 0 ∨ l.foldr min 255 = 255 := by
  induction l with
  | nil => right; rfl
  | cons a t ih =>
    have ha := h a (List.mem_cons_self a t)
    have ht := ih (fun v hv => h v (List.mem_cons_of_mem a hv))
    rcases ha with ha | ha <;> rcases ht with ht | ht <;> simp [ha, ht]

/-- A fold of max starting at 0 over values in {0, 255} is in {0, 255}. -/
theorem foldr_max_mem01 (l : List ℕ) (h : ∀ v ∈ l, v = 0 ∨ v = 255) :
    l.foldr max 0 = 0 ∨ l.foldr max 0 = 255 := by
  induction l with
  | nil => left; rfl
  | cons a t ih =>
    have ha := h a (List.mem_cons_self a t)
    have ht := ih (fun v hv => h v (List.mem_cons_of_mem a hv))
    rcases ha with ha | ha <;> rcases ht with ht | ht <;> simp [ha, ht]

/-- Every value of the 3x3 neighbourhood list is a pixel of the image at
in-bounds coordinates. -/
theorem nbrVals_mem (img : Img) (r c v : ℕ) (hv : v ∈ nbrVals img r c) :
    ∃ a b, a < img.rows ∧ b < img.cols ∧ v = img.px a b := by
  unfold nbrVals at hv
  obtain ⟨d, _, hfd⟩ := List.mem_filterMap.1 hv
  simp only at hfd
  split at hfd
  · next hcond =>
    obtain ⟨h1, h2, h3, h4⟩ := hcond
    refine ⟨((r : ℤ) + d.1).toNat, ((c : ℤ) + d.2).toNat, ?_, ?_, ?_⟩
    · omega
    · omega
    · injection hfd with hfd; exact hfd.symm
  · exact absurd hfd (by simp)

/-- For in-bounds (r, c) the pixel itself appears in its neighbourhood list. -/
theorem nbrVals_self_mem (img : Img) (r c : ℕ) (hr : r < img.rows) (hc : c < img.cols) :
    img.px r c ∈ nbrVals img r c := by
  unfold nbrVals
  apply List.mem_filterMap.2
  refine ⟨(0, 0), by simp [kernel3Offsets], ?_⟩
  simp only
  rw [if_pos (by constructor <;> omega)]
  simp

/-- If no in-bounds pixel is 0, the dark-pixel list is empty. -/
theorem darkPixels_eq_nil (img : Img) (h : ∀ r c, r < img.rows → c < img.cols → img.px r c ≠ 0) :
    darkPixels img = [] := by
  rw [List.eq_nil_iff_forall_not_mem]
  intro x hx
  unfold darkPixels at hx
  obtain ⟨r, hr, hx2⟩ := List.mem_flatMap.1 hx
  obtain ⟨c, hc, hx3⟩ := List.mem_filterMap.1 hx2
  rw [List.mem_range] at hr hc
  split at hx3
  · next h0 => exact h r c hr hc h0
  · exact absurd hx3 (by simp)

/-- Folding candidate insertion over levels that all contributed no
candidates leaves the group list unchanged. -/
theorem foldl_groups_of_empty (p : BlobParams) (L : List (List Candidate))
    (init : List (List Candidate)) (h : ∀ cs ∈ L, cs = []) :
    L.foldl (fun gs cands => cands.foldl (fun h2 c => insertCenter p c h2) gs) init = init := by
  induction L generalizing init with
  | nil => rfl
  | cons a t ih =>
    have ha := h a (List.mem_cons_self a t)
    rw [List.foldl_cons, ha]
    exact ih init (fun v hv => h v (List.mem_cons_of_mem a hv))

/-- satRound of a uint8-range natural is that natural. -/
theorem satRound_natCast (n : ℕ) (hn : n ≤ 255) : satRound (n : ℚ) = n := by
  unfold satRound clip255
  rw [round_natCast]
  split
  · omega
  · split <;> omega

/-- satRound of anything at least 255 saturates to 255. -/
theorem satRound_of_ge_255 (q : ℚ) (h : (255 : ℚ) ≤ q) : satRound q = 255 := by
  unfold satRound clip255
  have h1 : (255 : ℤ) ≤ round q := by
    rw [round_eq]
    have h2 : (255 : ℤ) = ⌊(255 : ℚ) + 1 / 2⌋ := by norm_num
    rw [h2]
    exact Int.floor_le_floor (by linarith)
  rw [if_neg (by omega), if_pos (by omega)]

/-- The full brightness/contrast stage with the arguments the source passes maps a
saturated white pixel to saturated white. -/
theorem applyBrightnessContrastPx_64_90_255 : applyBrightnessContrastPx 64 90 255 = 255 := by
  unfold applyBrightnessContrastPx addWeightedPx
  norm_num
  have h2 : satRound (255 : ℚ) = 255 := by
    have h3 : ((255 : ℕ) : ℚ) = (255 : ℚ) := by norm_num
    rw [← h3, satRound_natCast 255 le_rfl]
  rw [h2]
  apply satRound_of_ge_255
  push_cast
  norm_num

/-- The l_channel value of a pixel that is white in all three colour
channels is white. -/
theorem lChannel_px_of_white (img : Img3) (r c : ℕ)
    (h0 : img.px r c 0 = 255) (h1 : img.px r c 1 = 255) (h2 : img.px r c 2 = 255) :
    (lChannel img).px r c = 255 := by
  show applyBrightnessContrastPx 64 90 ((cvtColorBGR2GRAY img).px r c) = 255
  have hg : (cvtColorBGR2GRAY img).px r c = 255 := by
    show satRound ((299 / 1000 : ℚ) * img.px r c 2 + (587 / 1000 : ℚ) * img.px r c 1
      + (114 / 1000 : ℚ) * img.px r c 0) = 255
    rw [h0, h1, h2]
    have harg : (299 / 1000 : ℚ) * ((255 : ℕ) : ℚ) + (587 / 1000 : ℚ) * ((255 : ℕ) : ℚ)
        + (114 / 1000 : ℚ) * ((255 : ℕ) : ℚ) = ((255 : ℕ) : ℚ) := by
      push_cast
      norm_num
    rw [harg, satRound_natCast 255 le_rfl]
  rw [hg]
  exact applyBrightnessContrastPx_64_90_255

/-- Preprocessing a tile that is white at every in-bounds pixel and channel
yields a mask that is white at every in-bounds pixel. -/
theorem preprocess_px_of_white (img : Img3)
    (h : ∀ r c k, r < img.rows → c < img.cols → k < 3 → img.px r c k = 255) :
    ∀ r c, r < img.rows → c < img.cols → (preprocessForestImg img).px r c = 255 := by
  have hth : ∀ a b, a < img.rows → b < img.cols →
      (thresholdImg 170 255 (lChannel img)).px a b = 255 := by
    intro a b ha hb
    show thresholdPx 170 255 ((lChannel img).px a b) = 255
    rw [lChannel_px_of_white img a b (h a b 0 ha hb (by norm_num))
      (h a b 1 ha hb (by norm_num)) (h a b 2 ha hb (by norm_num))]
    rfl
  have her : ∀ a b, a < img.rows → b < img.cols →
      (erode3 (thresholdImg 170 255 (lChannel img))).px a b = 255 := by
    intro a b ha hb
    show (nbrVals (thresholdImg 170 255 (lChannel img)) a b).foldr min 255 = 255
    apply foldr_min_of_all_eq
    intro v hv
    obtain ⟨a2, b2, ha2, hb2, hval⟩ := nbrVals_mem _ a b v hv
    rw [hval]
    exact hth a2 b2 ha2 hb2
  intro r c hr hc
  show (nbrVals (erode3 (thresholdImg 170 255 (lChannel img))) r c).foldr max 0 = 255
  apply foldr_max_of_all_eq
  · intro v hv
    obtain ⟨a2, b2, ha2, hb2, hval⟩ := nbrVals_mem _ r c v hv
    rw [hval]
    exact her a2 b2 ha2 hb2
  · exact List.ne_nil_of_mem (nbrVals_self_mem (erode3 (thresholdImg 170 255 (lChannel img))) r c hr hc)

/-- Every sweep level the source-configured detector visits is below 255. -/
theorem thresholdLevels_getBlobParams_lt (t : ℚ) (ht : t ∈ thresholdLevels getBlobParams) :
    t < 255 := by
  unfold thresholdLevels at ht
  obtain ⟨i, hi, rfl⟩ := List.mem_map.1 ht
  rw [List.mem_range] at hi
  have hN : Int.toNat (Int.ceil ((getBlobParams.maxThreshold - getBlobParams.minThreshold)
      / getBlobParams.thresholdStep)) = 10 := by
    have hval : (getBlobParams.maxThreshold - getBlobParams.minThreshold)
        / getBlobParams.thresholdStep = (10 : ℚ) := by
      show ((100 : ℚ) - 0) / 10 = 10
      norm_num
    rw [hval]
    have hceil : Int.ceil ((10 : ℚ)) = 10 := by norm_num
    rw [hceil]
    rfl
  rw [hN] at hi
  have hmin : getBlobParams.minThreshold = 0 := rfl
  have hstep : getBlobParams.thresholdStep = 10 := rfl
  rw [hmin, hstep]
  have hcast : (i : ℚ) ≤ 9 := by
    exact_mod_cast Nat.le_of_lt_succ hi
  linarith

/-- The blob detector with the parameters the source sets finds nothing in an image
that is white at every in-bounds pixel. -/
theorem detectBlobs_nil_of_white (img : Img)
    (h : ∀ r c, r < img.rows → c < img.cols → img.px r c = 255) :
    detectBlobs getBlobParams img = [] := by
  have hcand : ∀ t ∈ thresholdLevels getBlobParams, candidatesAt getBlobParams img t = [] := by
    intro t ht
    unfold candidatesAt
    have hdark : darkPixels (binarizeAt t img) = [] := by
      apply darkPixels_eq_nil
      intro r c hr hc
      show (if t < ((img.px r c : ℕ) : ℚ) then 255 else 0) ≠ 0
      have hlt : t < ((img.px r c : ℕ) : ℚ) := by
        rw [h r c hr hc]
        exact_mod_cast thresholdLevels_getBlobParams_lt t ht
      rw [if_pos hlt]
      norm_num
    rw [hdark]
    rfl
  unfold detectBlobs
  have hmap : ∀ cs ∈ (thresholdLevels getBlobParams).map (candidatesAt getBlobParams img),
      cs = [] := by
    intro cs hcs
    obtain ⟨t, ht, rfl⟩ := List.mem_map.1 hcs
    exact hcand t ht
  rw [foldl_groups_of_empty getBlobParams _ [] hmap]
  rfl

-- ## Claim theorems

/-- Claim C1: for every RGB tile and every forest mask that is entirely
zero, count returns a result whose count equals 0 and whose blob sequence is
empty, and the sequences of the result are present (some, never none). -/
theorem c1_zero_mask_empty_result (flag : Bool) (rgb mask : NpArray) (h w : ℕ)
    (hr : rgb.shape = [h, w, 3]) (hm : mask.shape = [h, w])
    (hz : ∀ i j, i < h → j < w → mask.data [i, j] = 0) :
    TreeCounter.count (TreeCounter.new flag) rgb mask =
      .ok { trees := some [], count := 0, keypoints := some [] } := by
  have hval : validateShapes rgb mask = none := by
    unfold validateShapes
    rw [hr, hm]
    simp
  have hrows : (maskedInput rgb mask).rows = h := by
    show rgb.shape.headD 0 = h
    rw [hr]
    rfl
  have hcols : (maskedInput rgb mask).cols = w := by
    show (rgb.shape.drop 1).headD 0 = w
    rw [hr]
    rfl
  have hwhite : ∀ r c k, r < (maskedInput rgb mask).rows → c < (maskedInput rgb mask).cols →
      k < 3 → (maskedInput rgb mask).px r c k = 255 := by
    intro r c k hr2 hc2 _
    show 255 - (if (maskOfArray mask).px r c ≠ 0 then (imgOfArray rgb).px r c k else 0) = 255
    have hm0 : (maskOfArray mask).px r c = 0 := by
      show mask.data [r, c] = 0
      exact hz r c (hrows ▸ hr2) (hcols ▸ hc2)
    rw [hm0]
    simp
  have hdet : detectBlobs getBlobParams (preprocessForestImg (maskedInput rgb mask)) = [] := by
    apply detectBlobs_nil_of_white
    intro r c hr2 hc2
    exact preprocess_px_of_white (maskedInput rgb mask) hwhite r c hr2 hc2
  unfold TreeCounter.count
  rw [hval]
  simp [TreeCounter.new, hdet]

/-- Witness for C1 at a concrete 1x1 tile with an all-zero mask. -/
theorem c1_zero_mask_empty_result_witness :
    TreeCounter.count (TreeCounter.new false) rgbTile1 zeroMask1 =
      .ok { trees := some [], count := 0, keypoints := some [] } :=
  c1_zero_mask_empty_result false rgbTile1 zeroMask1 1 1 rfl rfl (fun _ _ _ _ => rfl)

/-- Claim C2: whenever the RGB array is not 3-dimensional, or the mask is not
2-dimensional, or the mask shape differs from the first two RGB
dimensions, count fails synchronously with a ShapeMismatchError and returns
no result. -/
theorem c2_shape_mismatch_error (tc : TreeCounter) (rgb mask : NpArray)
    (hbad : rgb.shape.length ≠ 3 ∨ mask.shape.length ≠ 2 ∨ rgb.shape.take 2 ≠ mask.shape) :
    ∃ e : ShapeMismatchError, TreeCounter.count tc rgb mask = .error e := by
  unfold TreeCounter.count validateShapes
  by_cases h1 : rgb.shape.length = 3
  · by_cases h2 : mask.shape.length = 2
    · have h3 : rgb.shape.take 2 ≠ mask.shape := by tauto
      exact ⟨.maskShapeNeq, by rw [if_neg (not_not.mpr h1), if_neg (not_not.mpr h2), if_pos h3]⟩
    · exact ⟨.maskNot2Dim, by rw [if_neg (not_not.mpr h1), if_pos h2]⟩
  · exact ⟨.rgbNot3Dim, by rw [if_pos h1]⟩

/-- Witness for C2 at a concrete 2-dimensional RGB input. -/
theorem c2_shape_mismatch_error_witness :
    ∃ e : ShapeMismatchError,
      TreeCounter.count (TreeCounter.new false) badRgb2Dim zeroMask1 = .error e :=
  c2_shape_mismatch_error (TreeCounter.new false) badRgb2Dim zeroMask1 (Or.inl (by decide))

/-- Claim C3: for every input image the output of the Preprocessor is a
single-channel mask of the same height and width whose every pixel value is
either 0 or 255. -/
theorem c3_preprocess_binary_same_size (img : Img3) :
    (preprocessForestImg img).rows = img.rows ∧
    (preprocessForestImg img).cols = img.cols ∧
    ∀ r c : ℕ, (preprocessForestImg img).px r c = 0 ∨ (preprocessForestImg img).px r c = 255 := by
  refine ⟨rfl, rfl, ?_⟩
  intro r c
  show (nbrVals (erode3 (thresholdImg 170 255 (lChannel img))) r c).foldr max 0 = 0 ∨
    (nbrVals (erode3 (thresholdImg 170 255 (lChannel img))) r c).foldr max 0 = 255
  apply foldr_max_mem01
  intro v hv
  obtain ⟨a, b, _, _, hval⟩ := nbrVals_mem _ r c v hv
  rw [hval]
  show (nbrVals (thresholdImg 170 255 (lChannel img)) a b).foldr min 255 = 0 ∨
    (nbrVals (thresholdImg 170 255 (lChannel img)) a b).foldr min 255 = 255
  apply foldr_min_mem01
  intro v2 hv2
  obtain ⟨a2, b2, _, _, hval2⟩ := nbrVals_mem _ a b v2 hv2
  rw [hval2]
  show thresholdPx 170 255 ((lChannel img).px a2 b2) = 0 ∨
    thresholdPx 170 255 ((lChannel img).px a2 b2) = 255
  unfold thresholdPx
  split
  · right
    rfl
  · left
    rfl

/-- Counterexample for C4: the claim maps every pixel of intensity at least
170 to 255, but the binarization sends the boundary intensity 170 to 0. -/
theorem c4_claim_false : ¬ ∀ v : ℕ, 170 ≤ v → thresholdPx 170 255 v = 255 := by
  intro hcl
  have h := hcl 170 le_rfl
  unfold thresholdPx at h
  rw [if_neg (by omega)] at h
  exact absurd h (by norm_num)

/-- Claim C4 as amended: the binarization maps a pixel to 255 exactly when
its intensity is strictly greater than 170, and to 0 when it is at most
170. -/
theorem c4_binarization_strict (v : ℕ) :
    (170 < v → thresholdPx 170 255 v = 255) ∧ (v ≤ 170 → thresholdPx 170 255 v = 0) := by
  constructor
  · intro h
    unfold thresholdPx
    rw [if_pos h]
  · intro h
    unfold thresholdPx
    rw [if_neg (by omega)]

/-- Witness for the amended C4 at the intensities 171 and 170. -/
theorem c4_binarization_strict_witness :
    thresholdPx 170 255 171 = 255 ∧ thresholdPx 170 255 170 = 0 :=
  ⟨(c4_binarization_strict 171).1 (by norm_num), (c4_binarization_strict 170).2 le_rfl⟩

/-- Claim C5: the l_channel stage of the pipeline, which invokes the
brightness/contrast routine with the defaults b = 64 and c = 90, equals the
composition of the brightness remap onto [b, 255] stated by the spec followed by
the contrast map stated by the spec with gain f = 131*(c+127)/(127*(131-c)) and
output f*v + 127*(1-f) clipped to [0, 255]. -/
theorem c5_brightness_contrast_formulas (img : Img3) (r c : ℕ) :
    (lChannel img).px r c =
      specContrastPx 90 (specBrightnessRemapPx 64 ((cvtColorBGR2GRAY img).px r c)) := by
  show applyBrightnessContrastPx 64 90 ((cvtColorBGR2GRAY img).px r c) =
    specContrastPx 90 (specBrightnessRemapPx 64 ((cvtColorBGR2GRAY img).px r c))
  generalize (cvtColorBGR2GRAY img).px r c = v
  unfold applyBrightnessContrastPx
  rw [if_pos (show (64 : ℤ) ≠ 0 by decide), if_pos (show (0 : ℤ) < 64 by decide),
    if_pos (show (90 : ℤ) ≠ 0 by decide)]
  show addWeightedPx (131 * (((90 : ℤ) : ℚ) + 127) / (127 * (131 - ((90 : ℤ) : ℚ))))
      (addWeightedPx ((((255 : ℤ) : ℚ) - ((64 : ℤ) : ℚ)) / 255) v 0 v ((64 : ℤ) : ℚ)) 0
      (addWeightedPx ((((255 : ℤ) : ℚ) - ((64 : ℤ) : ℚ)) / 255) v 0 v ((64 : ℤ) : ℚ))
      (127 * (1 - 131 * (((90 : ℤ) : ℚ) + 127) / (127 * (131 - ((90 : ℤ) : ℚ))))) =
    specContrastPx 90 (specBrightnessRemapPx 64 v)
  have hB : addWeightedPx ((((255 : ℤ) : ℚ) - ((64 : ℤ) : ℚ)) / 255) v 0 v ((64 : ℤ) : ℚ)
      = specBrightnessRemapPx 64 v := by
    unfold addWeightedPx specBrightnessRemapPx
    congr 1
    push_cast
    ring
  rw [hB]
  unfold addWeightedPx specContrastPx
  congr 1
  push_cast
  ring

/-- Counterexample for C6: the claim says a connected component whose area
is exactly maxArea passes the area filter, but the filter rejects the area
maxArea (the upper bound is exclusive). -/
theorem c6_claim_false : passesAreaFilter getBlobParams getBlobParams.maxArea = false := by
  unfold passesAreaFilter
  rw [if_pos (show getBlobParams.filterByArea = true from rfl)]
  rw [show getBlobParams.minArea = 1 from rfl, show getBlobParams.maxArea = 10 from rfl]
  simp only [decide_eq_false_iff_not, not_not]
  right
  exact le_refl (10 : ℚ)

/-- Claim C6 as amended: the source-configured area filter accepts exactly
the half-open interval [minArea, maxArea) = [1, 10): area 1 passes, area 0 is
rejected, area 10 is rejected, area 11 is rejected. -/
theorem c6_area_filter_half_open (a : ℚ) :
    passesAreaFilter getBlobParams a = true ↔ (1 ≤ a ∧ a < 10) := by
  unfold passesAreaFilter
  rw [if_pos (show getBlobParams.filterByArea = true from rfl)]
  rw [show getBlobParams.minArea = 1 from rfl, show getBlobParams.maxArea = 10 from rfl]
  simp only [decide_eq_true_eq]
  constructor
  · intro h
    push_neg at h
    exact h
  · intro h
    push_neg
    exact h

/-- Witness for the amended C6 at the boundary areas 1, 0, 10 and 11. -/
theorem c6_area_filter_half_open_witness :
    passesAreaFilter getBlobParams 1 = true ∧ passesAreaFilter getBlobParams 0 = false ∧
      passesAreaFilter getBlobParams 10 = false ∧ passesAreaFilter getBlobParams 11 = false := by
  refine ⟨(c6_area_filter_half_open 1).mpr (by norm_num), ?_, ?_, ?_⟩
  · have h := c6_area_filter_half_open 0
    rcases hb : passesAreaFilter getBlobParams 0 with _ | _
    · rfl
    · exact absurd ((h.mp hb).1) (by norm_num)
  · have h := c6_area_filter_half_open 10
    rcases hb : passesAreaFilter getBlobParams 10 with _ | _
    · rfl
    · exact absurd ((h.mp hb).2) (by norm_num)
  · have h := c6_area_filter_half_open 11
    rcases hb : passesAreaFilter getBlobParams 11 with _ | _
    · rfl
    · exact absurd ((h.mp hb).2) (by norm_num)

/-- Counterexample for C7: with the identity transform and tile origin
P = (2, 3), mapping pixel (0, 0) returns (5/2, 7/2), the centre of the pixel
containing P, which is half a pixel away from P rather than P itself. -/
theorem c7_claim_false :
    keypointToGeo idAffine 2 3 0 0 = (5 / 2, 7 / 2) ∧
      keypointToGeo idAffine 2 3 0 0 ≠ ((2 : ℚ), (3 : ℚ)) := by
  have hc : Affine.invCol idAffine 2 3 = 2 := by
    unfold Affine.invCol Affine.det idAffine
    norm_num
  have hr : Affine.invRow idAffine 2 3 = 3 := by
    unfold Affine.invRow Affine.det idAffine
    norm_num
  have h : keypointToGeo idAffine 2 3 0 0 = (5 / 2, 7 / 2) := by
    unfold keypointToGeo Affine.rowcol Affine.xy Affine.fwd
    rw [hc, hr]
    have h2 : ⌊(2 : ℚ)⌋ = 2 := by norm_num
    have h3 : ⌊(3 : ℚ)⌋ = 3 := by norm_num
    rw [h2, h3]
    norm_num [idAffine, Prod.ext_iff]
  refine ⟨h, ?_⟩
  rw [h]
  intro hcontra
  have h1 := congrArg Prod.fst hcontra
  norm_num at h1

/-- Claim C7 as amended: mapping pixel (0, 0) of a tile whose origin is the
geographic point at integer pixel indices (c0, r0) returns the geographic
centre of that pixel, i.e. the forward transform of (c0 + 1/2, r0 + 1/2) -
half a pixel away from the origin itself, not the origin. -/
theorem c7_pixel_center (T : Affine) (c0 r0 : ℤ) (hdet : T.det ≠ 0) :
    keypointToGeo T (T.fwd ((c0 : ℤ) : ℚ) ((r0 : ℤ) : ℚ)).1 (T.fwd ((c0 : ℤ) : ℚ) ((r0 : ℤ) : ℚ)).2 0 0 =
      T.fwd (((c0 : ℤ) : ℚ) + 1 / 2) (((r0 : ℤ) : ℚ) + 1 / 2) := by
  unfold Affine.det at hdet
  have hc : Affine.invCol T (T.fwd ((c0 : ℤ) : ℚ) ((r0 : ℤ) : ℚ)).1
      (T.fwd ((c0 : ℤ) : ℚ) ((r0 : ℤ) : ℚ)).2 = ((c0 : ℤ) : ℚ) := by
    unfold Affine.invCol Affine.fwd Affine.det
    field_simp
    ring
  have hr : Affine.invRow T (T.fwd ((c0 : ℤ) : ℚ) ((r0 : ℤ) : ℚ)).1
      (T.fwd ((c0 : ℤ) : ℚ) ((r0 : ℤ) : ℚ)).2 = ((r0 : ℤ) : ℚ) := by
    unfold Affine.invRow Affine.fwd Affine.det
    field_simp
    ring
  unfold keypointToGeo Affine.rowcol Affine.xy
  rw [hc, hr, Int.floor_intCast, Int.floor_intCast]
  norm_num

/-- Witness for the amended C7 at a concrete anisotropic transform and the
pixel (4, 7). -/
theorem c7_pixel_center_witness :
    keypointToGeo exAffine (exAffine.fwd ((4 : ℤ) : ℚ) ((7 : ℤ) : ℚ)).1
        (exAffine.fwd ((4 : ℤ) : ℚ) ((7 : ℤ) : ℚ)).2 0 0 =
      exAffine.fwd (((4 : ℤ) : ℚ) + 1 / 2) (((7 : ℤ) : ℚ) + 1 / 2) :=
  c7_pixel_center exAffine 4 7 (by unfold Affine.det exAffine; norm_num)

/-- Claim C8: the Preprocessor is deterministic and stateless: two successive
runs on the same input with the same parameters produce bit-identical
outputs.  The embedding is a pure function of its input because the source
mutates no instance or global state between the two calls. -/
theorem c8_preprocess_deterministic (img : Img3) :
    (runPreprocessTwice img).1 = (runPreprocessTwice img).2 := rfl

/-- Claim C9: the validation in count does not inspect the channel count: any
3-dimensional RGB array whose first two dimensions match the 2-dimensional
mask passes validation, whatever its third dimension is. -/
theorem c9_validation_ignores_channels (h w ch : ℕ) (d1 d2 : List ℕ → ℕ) :
    validateShapes ⟨[h, w, ch], d1⟩ ⟨[h, w], d2⟩ = none := by
  unfold validateShapes
  simp

/-- Claim C10: the result of count does not depend on the return_locations
flag given to the constructor: the flag is stored but never read by count. -/
theorem c10_count_ignores_return_locations (f1 f2 : Bool) (rgb mask : NpArray) :
    TreeCounter.count (TreeCounter.new f1) rgb mask =
      TreeCounter.count (TreeCounter.new f2) rgb mask := rfl
